import Mathlib

/-!
Verification of the RAG chat orchestrator (backend/app/rag/chat.py).

The embedding models the data that the orchestrator reads and writes:
the persistent chat/message store, the engine configuration resolved in
ChatService.__init__, the event stream produced by ChatService.chat, and
the prompt-template brace-escaping pipeline of
get_prompt_by_jinja2_template.  External collaborators (graph store,
vector store, language models, jinja2 rendering) are represented by an
environment record whose fields give each call's outcome; a Python
exception raised by a collaborator is an Except.error outcome.
-/

/-- Source documents resolved by ChatService._get_source_documents:
id, name and source_uri of a cited document. -/
structure SourceDoc where
  id : Nat
  name : String
  source_uri : String
deriving DecidableEq

/-- Modelled from the spec: ChatMessageSate (app/rag/types.py is not in
src/); the progress states carried by MESSAGE_ANNOTATIONS_PART events. -/
inductive ChatMessageSate where
  | TRACE
  | SOURCE_NODES
  | REFINE_QUESTION
  | SEARCH_RELATED_DOCUMENTS
  | FINISHED
deriving DecidableEq

/-- Modelled from the spec: MessageRole.USER.value (app/rag/types.py is
not in src/); role string stored on user messages. -/
def roleUser : String := "user"

/-- Modelled from the spec: MessageRole.ASSISTANT.value. -/
def roleAssistant : String := "assistant"

/-- A row of the chats table (app/models/chat.py).  engine_id /
engine_options / deleted_at do not affect the verified claims and are
omitted; user_id is optional (an anonymous chat has none). -/
structure DBChat where
  id : Nat
  title : String
  user_id : Option Nat
  browser_id : String
deriving DecidableEq

/-- A row of the chat_messages table.  finished abstracts finished_at
(false = the NULL placeholder state, true = finalized). -/
structure DBChatMessage where
  id : Nat
  chat_id : Nat
  role : String
  content : String
  trace_url : String
  ordinal : Nat
  sources : List SourceDoc
  finished : Bool
deriving DecidableEq

/-- The users table as consumed by user_can_view_chat. -/
structure User where
  id : Nat
  is_superuser : Bool
deriving DecidableEq

/-- Modelled from the spec: ChatStreamDataPayload
(app/rag/chat_stream_protocol.py is not in src/): the record snapshot
carried by a DATA_PART event. -/
structure ChatStreamDataPayload where
  chat : DBChat
  user_message : DBChatMessage
  assistant_message : DBChatMessage
deriving DecidableEq

/-- Modelled from the spec: the four ChatEvent wire variants
(TEXT_PART, DATA_PART, MESSAGE_ANNOTATIONS_PART, ERROR_PART).  The
display strings and context maps of annotations are client-display
payload and are not inspected by any claim, so the annotation carries
its state only. -/
inductive ChatEvent where
  | textPart (payload : String)
  | dataPart (payload : ChatStreamDataPayload)
  | messageAnnotationsPart (state : ChatMessageSate)
  | errorPart (payload : String)
deriving DecidableEq

/-- An element of the chat_messages argument of ChatService.chat
(llama-index ChatMessage: role + content). -/
structure InMsg where
  role : String
  content : String
deriving DecidableEq

/-- The persistent store visible through chat_repo.  nextId models the
autoincrement / uuid generation of primary keys. -/
structure DBState where
  nextId : Nat
  chats : List DBChat
  messages : List DBChatMessage
deriving DecidableEq

/-- chat_repo.get_messages restricted to one chat (ordered as stored). -/
def messagesOfChat (db : DBState) (cid : Nat) : List DBChatMessage :=
  db.messages.filter (fun m => m.chat_id == cid)

/-- chat_repo.create for a DBChat: insert and commit one chat row
(base_repo.create: session.add + commit + refresh). -/
def createChat (db : DBState) (title : String) (userId : Option Nat)
    (browserId : String) : DBState × DBChat :=
  let row : DBChat := { id := db.nextId, title := title, user_id := userId, browser_id := browserId }
  ({ db with nextId := db.nextId + 1, chats := db.chats ++ [row] }, row)

/-- Modelled from the spec: chat_repo.create_message (the repository
module is not in src/; base_repo.create shows each write is its own
committed insert).  When no ordinal is passed the repository assigns the
next ordinal of the chat (spec: ordinal strictly increasing per chat). -/
def createMessage (db : DBState) (chatId : Nat) (role content traceUrl : String)
    (ord : Option Nat) : DBState × DBChatMessage :=
  let ordinal := match ord with
    | some o => o
    | none => (messagesOfChat db chatId).length + 1
  let row : DBChatMessage :=
    { id := db.nextId, chat_id := chatId, role := role, content := content
    , trace_url := traceUrl, ordinal := ordinal, sources := [], finished := false }
  ({ db with nextId := db.nextId + 1, messages := db.messages ++ [row] }, row)

/-- The single commit of the finalized assistant message
(chat.py lines 373-378: session.add + commit of the mutated row). -/
def updateMessage (db : DBState) (row : DBChatMessage) : DBState :=
  { db with messages := db.messages.map (fun m => if m.id = row.id then row else m) }

/-- Seeding of caller-supplied history into a newly created chat
(chat.py lines 129-138): one create_message per history item with
ordinal i + 1. -/
def seedHistory (db : DBState) (chatId : Nat) (hist : List InMsg) : DBState :=
  (hist.enum).foldl
    (fun d im => (createMessage d chatId im.2.role im.2.content "" (some (im.1 + 1))).1) db

/-- knowledge_graph section of the engine configuration
(ChatEngineConfig.knowledge_graph as read by chat.py). -/
structure KnowledgeGraphConfig where
  enabled : Bool
  using_intent_search : Bool
  depth : Nat
  include_meta : Bool
  with_degree : Bool
  relationship_meta_filters : List (String × String)
deriving DecidableEq

/-- The part of ChatEngineConfig that ChatService.__init__ consumes:
whether get_reranker returned a reranker, and the knowledge-graph
section. -/
structure ChatEngineConfigM where
  hasReranker : Bool
  kg : KnowledgeGraphConfig
deriving DecidableEq

/-- Node postprocessors installed on the query engine. -/
inductive PostProcessor where
  | metadataFilter
  | reranker
deriving DecidableEq

/-- The fields ChatService.__init__ computes and _chat later reads. -/
structure ChatServiceState where
  nodePostprocessors : List PostProcessor
  similarityTopK : Nat
  kg : KnowledgeGraphConfig
deriving DecidableEq

/-- ChatService.__init__ (chat.py lines 51-81): with a reranker the
postprocessor list is [metadata filter, reranker] and similarity_top_k
is 100; without one it is [metadata filter] and 10. -/
def ChatService.init (cfg : ChatEngineConfigM) : ChatServiceState :=
  if cfg.hasReranker then
    { nodePostprocessors := [PostProcessor.metadataFilter, PostProcessor.reranker]
    , similarityTopK := 100, kg := cfg.kg }
  else
    { nodePostprocessors := [PostProcessor.metadataFilter]
    , similarityTopK := 10, kg := cfg.kg }

/-- Outcomes of the external collaborator calls made during one turn.
An Except.error value means that call raised.  response_gen is modelled
as the fragments produced before the stream either completes
(streamExc = false) or raises (streamExc = true). -/
structure Env where
  enableLangfuse : Bool
  traceUrl : String
  userId : Option Nat
  browserId : String
  intentSearch : Except Unit (List Nat × List Nat)
  intentRendered : String
  weightedRetrieve : Except Unit (List Nat × List Nat × List Nat)
  normalRendered : String
  refine : Except Unit String
  queryCall : Except Unit Unit
  sourceDocs : List SourceDoc
  tokens : List String
  streamExc : Bool

/-- The retrieval-stage artifacts (entities, relationships, chunks and
the rendered graph-knowledge context).  chunks is none in the
intent-search branch, where the source never binds the chunks
variable. -/
structure KGResult where
  entities : List Nat
  relations : List Nat
  chunks : Option (List Nat)
  context : String
deriving DecidableEq

/-- The observable result of one invocation: the events yielded, the
final store, whether an unhandled exception escaped _chat (exc), and
the retrieval/query-engine artifacts recorded for verification. -/
structure ChatOutcome where
  events : List ChatEvent
  db : DBState
  exc : Option Unit
  kg : Option KGResult
  queryArgs : Option (List PostProcessor × Nat)
deriving DecidableEq

/-- The generic user-safe message of the top-level except handler
(chat.py lines 89-94). -/
def genericErrorMessage : String :=
  "Encountered an error while processing the chat. Please try again later."

/-- The RESOLVE-stage not-found message (chat.py line 109). -/
def chatNotFoundMessage : String := "Chat not found"

/-- One pass of Python str.replace(pattern, replacement): scan left to
right, replace each non-overlapping occurrence of (p :: pt), continue
after the replacement.  Structural recursion on a fuel bound so that the
function computes by kernel reduction. -/
def replaceSubAux (p : Char) (pt rep : List Char) : Nat → List Char → List Char
  | 0, s => s
  | Nat.succ _, [] => []
  | Nat.succ n, c :: cs =>
    if (p :: pt).isPrefixOf (c :: cs) then
      rep ++ replaceSubAux p pt rep n (List.drop pt.length cs)
    else
      c :: replaceSubAux p pt rep n cs

/-- str.replace(pat, rep) on a list of characters (pat nonempty at every
call site; an empty pattern leaves the string unchanged). -/
def replace1 (pat rep s : List Char) : List Char :=
  match pat with
  | [] => s
  | p :: pt => replaceSubAux p pt rep s.length s

/-- The tail (after the opening brace) of the deferred placeholder
for query_str. -/
def phq : List Char := ['q', 'u', 'e', 'r', 'y', '_', 's', 't', 'r', '\x7d']

/-- Tail of the deferred placeholder for context_str. -/
def phc : List Char := ['c', 'o', 'n', 't', 'e', 'x', 't', '_', 's', 't', 'r', '\x7d']

/-- Tail of the deferred placeholder for existing_answer. -/
def phe : List Char :=
  ['e', 'x', 'i', 's', 't', 'i', 'n', 'g', '_', 'a', 'n', 's', 'w', 'e', 'r', '\x7d']

/-- Tail of the deferred placeholder for context_msg. -/
def phm : List Char := ['c', 'o', 'n', 't', 'e', 'x', 't', '_', 'm', 's', 'g', '\x7d']

/-- The marker the source rewrites to the query_str placeholder. -/
def mQuery : List Char := ['<', '<', 'q', 'u', 'e', 'r', 'y', '_', 's', 't', 'r', '>', '>']

/-- Marker rewritten to the context_str placeholder. -/
def mCtxStr : List Char :=
  ['<', '<', 'c', 'o', 'n', 't', 'e', 'x', 't', '_', 's', 't', 'r', '>', '>']

/-- Marker rewritten to the existing_answer placeholder. -/
def mExisting : List Char :=
  ['<', '<', 'e', 'x', 'i', 's', 't', 'i', 'n', 'g', '_', 'a', 'n', 's', 'w', 'e', 'r', '>', '>']

/-- Marker rewritten to the context_msg placeholder. -/
def mCtxMsg : List Char :=
  ['<', '<', 'c', 'o', 'n', 't', 'e', 'x', 't', '_', 'm', 's', 'g', '>', '>']

/-- The chain of str.replace calls of get_prompt_by_jinja2_template
(chat.py lines 435-449) applied to the jinja2-rendered string: double
every brace, then restore the four deferred placeholders from their
angle-bracket markers. -/
def promptPostprocess (s : List Char) : List Char :=
  replace1 mCtxMsg ('\x7b' :: phm)
    (replace1 mExisting ('\x7b' :: phe)
      (replace1 mCtxStr ('\x7b' :: phc)
        (replace1 mQuery ('\x7b' :: phq)
          (replace1 ['\x7d'] ['\x7d', '\x7d']
            (replace1 ['\x7b'] ['\x7b', '\x7b'] s)))))

/-- get_prompt_by_jinja2_template (chat.py lines 429-450).  The jinja2
render itself is an external collaborator; rendered is its output, and
the function applies the source's escape chain to it.  The returned
string is the PromptTemplate template text. -/
def get_prompt_by_jinja2_template (rendered : String) : String :=
  String.mk (promptPostprocess rendered.toList)

/-- The downstream f-string formatter's view of the escaped output: true
when every brace is part of a doubled (escaped) pair or of one of the
four deferred placeholders, scanning greedily left to right. -/
def okOutput : List Char → Bool
  | [] => true
  | c :: cs =>
    if c = '\x7b' then
      if phq.isPrefixOf cs then okOutput (cs.drop phq.length)
      else if phc.isPrefixOf cs then okOutput (cs.drop phc.length)
      else if phe.isPrefixOf cs then okOutput (cs.drop phe.length)
      else if phm.isPrefixOf cs then okOutput (cs.drop phm.length)
      else if ['\x7b'].isPrefixOf cs then okOutput (cs.drop 1)
      else false
    else if c = '\x7d' then
      if ['\x7d'].isPrefixOf cs then okOutput (cs.drop 1)
      else false
    else okOutput cs
termination_by s => s.length
decreasing_by
  all_goals simp [List.length_drop]
  all_goals omega

/-- Continuation of ChatService._chat after the retrieval stage
(chat.py lines 292-394): REFINE_QUESTION annotation then the fast-model
call, SEARCH_RELATED_DOCUMENTS annotation then query-engine
construction and query, SOURCE_NODES annotation, the token loop, the
finalize commit, the FINISHED annotation and the closing DATA_PART.
A collaborator failure stops the pipeline with exc = some (). -/
def ChatService._chat_afterRetrieve (svc : ChatServiceState) (env : Env)
    (chatObj : DBChat) (userMsg asstMsg : DBChatMessage)
    (evAcc : List ChatEvent) (kg : KGResult) (db : DBState) : ChatOutcome :=
  let ev1 := evAcc ++ [ChatEvent.messageAnnotationsPart ChatMessageSate.REFINE_QUESTION]
  match env.refine with
  | Except.error _ =>
    { events := ev1, db := db, exc := some (), kg := some kg, queryArgs := none }
  | Except.ok _refined =>
    let ev2 := ev1 ++ [ChatEvent.messageAnnotationsPart ChatMessageSate.SEARCH_RELATED_DOCUMENTS]
    let qArgs := (svc.nodePostprocessors, svc.similarityTopK)
    match env.queryCall with
    | Except.error _ =>
      { events := ev2, db := db, exc := some (), kg := some kg, queryArgs := some qArgs }
    | Except.ok _ =>
      let source_documents := env.sourceDocs
      let ev3 := ev2 ++ [ChatEvent.messageAnnotationsPart ChatMessageSate.SOURCE_NODES]
      let ev4 := ev3 ++ env.tokens.map ChatEvent.textPart
      if env.streamExc then
        { events := ev4, db := db, exc := some (), kg := some kg, queryArgs := some qArgs }
      else
        let response_text := String.join env.tokens
        let asstFinal :=
          { asstMsg with content := response_text, sources := source_documents, finished := true }
        let db2 := updateMessage db asstFinal
        { events := ev4 ++
            [ChatEvent.messageAnnotationsPart ChatMessageSate.FINISHED
            , ChatEvent.dataPart
                { chat := chatObj, user_message := userMsg, assistant_message := asstFinal }]
        , db := db2, exc := none, kg := some kg, queryArgs := some qArgs }

/-- ChatService._chat after chat resolution (chat.py lines 140-290):
persist the user message and the empty assistant placeholder, yield the
initial empty TEXT_PART, the DATA_PART and the TRACE annotation, then
run the retrieval stage.  The graph-knowledge context is the escaped
render of the configured template; when the knowledge-graph feature is
disabled the stage yields empty results and an empty context. -/
def ChatService._chat_afterResolve (svc : ChatServiceState) (env : Env)
    (chatObj : DBChat) (user_question : String) (_chat_history : List InMsg)
    (db : DBState) : ChatOutcome :=
  let trace_url := if env.enableLangfuse then env.traceUrl else ""
  let r1 := createMessage db chatObj.id roleUser user_question "" none
  let r2 := createMessage r1.1 chatObj.id roleAssistant "" trace_url none
  let db2 := r2.1
  let db_user_message := r1.2
  let db_assistant_message := r2.2
  let ev0 : List ChatEvent :=
    [ChatEvent.textPart ""
    , ChatEvent.dataPart
        { chat := chatObj, user_message := db_user_message
        , assistant_message := db_assistant_message }
    , ChatEvent.messageAnnotationsPart ChatMessageSate.TRACE]
  if svc.kg.enabled then
    if svc.kg.using_intent_search then
      match env.intentSearch with
      | Except.error _ =>
        { events := ev0, db := db2, exc := some (), kg := none, queryArgs := none }
      | Except.ok er =>
        let ctx := get_prompt_by_jinja2_template env.intentRendered
        ChatService._chat_afterRetrieve svc env chatObj db_user_message db_assistant_message
          ev0 { entities := er.1, relations := er.2, chunks := none, context := ctx } db2
    else
      match env.weightedRetrieve with
      | Except.error _ =>
        { events := ev0, db := db2, exc := some (), kg := none, queryArgs := none }
      | Except.ok wr =>
        let ctx := get_prompt_by_jinja2_template env.normalRendered
        ChatService._chat_afterRetrieve svc env chatObj db_user_message db_assistant_message
          ev0 { entities := wr.1, relations := wr.2.1, chunks := some wr.2.2, context := ctx } db2
  else
    ChatService._chat_afterRetrieve svc env chatObj db_user_message db_assistant_message
      ev0 { entities := [], relations := [], chunks := some [], context := "" } db2

/-- ChatService._chat (chat.py lines 96-394).  chat_messages[-1] on an
empty list raises (exc before any write or event); with a supplied
chat_id the chat is looked up and a miss yields the single
"Chat not found" ERROR_PART; without one a new chat row is created and
the caller-supplied history is seeded into it. -/
def ChatService._chat (svc : ChatServiceState) (env : Env)
    (chat_messages : List InMsg) (chat_id : Option Nat) (db0 : DBState) : ChatOutcome :=
  match chat_messages.getLast? with
  | none =>
    { events := [], db := db0, exc := some (), kg := none, queryArgs := none }
  | some last =>
    let user_question := last.content
    let chat_history := chat_messages.dropLast
    match chat_id with
    | some cid =>
      match db0.chats.find? (fun c => c.id == cid) with
      | none =>
        { events := [ChatEvent.errorPart chatNotFoundMessage]
        , db := db0, exc := none, kg := none, queryArgs := none }
      | some chatObj =>
        let hist2 := (messagesOfChat db0 cid).map
          (fun m => { role := m.role, content := m.content : InMsg })
        ChatService._chat_afterResolve svc env chatObj user_question hist2 db0
    | none =>
      let rc := createChat db0 (user_question.take 100) env.userId env.browserId
      let db1 := seedHistory rc.1 rc.2.id chat_history
      ChatService._chat_afterResolve svc env rc.2 user_question chat_history db1

/-- The try/except of ChatService.chat (chat.py lines 83-94): forward
the inner events; if the inner generator raised, yield exactly one
generic ERROR_PART and end the stream. -/
def ChatService.chatWrap (o : ChatOutcome) : ChatOutcome :=
  match o.exc with
  | some _ =>
    { o with events := o.events ++ [ChatEvent.errorPart genericErrorMessage], exc := none }
  | none => o

/-- ChatService.chat: the full turn as observed by a caller consuming
the stream to completion. -/
def ChatService.chat (svc : ChatServiceState) (env : Env)
    (chat_messages : List InMsg) (chat_id : Option Nat) (db0 : DBState) : ChatOutcome :=
  ChatService.chatWrap (ChatService._chat svc env chat_messages chat_id db0)

/-- user_can_view_chat (chat.py lines 453-458), translated from the
Python truthiness test: a chat with an owner is visible only to its
owner or to a superuser; an ownerless chat is visible to anyone. -/
def user_can_view_chat (chat : DBChat) (user : Option User) : Bool :=
  if chat.user_id.isSome &&
      !(match user with
        | some u => u.is_superuser || chat.user_id == some u.id
        | none => false) then
    false
  else
    true

/-- The arguments of one graph_store.retrieve_with_weight call.
Modelled from the spec: the graph store module is not in src/; its
signature is retrieveWeighted(question, history, depth, includeMeta,
withDegree, relationshipFilters, withChunks), and an argument the
caller omits takes the store's default, modelled as the empty filter
list. -/
structure WeightedCallArgs where
  query : String
  history : List String
  depth : Nat
  include_meta : Bool
  with_degree : Bool
  relationship_meta_filters : List (String × String)
  with_chunks : Bool
deriving DecidableEq

/-- get_chat_message_subgraph (chat.py lines 461-483): empty lists for a
non-user message; for a user message one weighted retrieval whose
result is retrieveResult and whose argument record is returned for
inspection.  The source passes depth, include_meta and with_degree from
the chat's engine configuration and omits relationship_meta_filters. -/
def get_chat_message_subgraph (cfg : KnowledgeGraphConfig)
    (retrieveResult : List Nat × List Nat) (msg : DBChatMessage) :
    (List Nat × List Nat) × Option WeightedCallArgs :=
  if msg.role ≠ roleUser then (([], []), none)
  else
    (retrieveResult
    , some
        { query := msg.content, history := [], depth := cfg.depth
        , include_meta := cfg.include_meta, with_degree := cfg.with_degree
        , relationship_meta_filters := [], with_chunks := false })

/-- Is the event an ERROR_PART. -/
def isErrorEvent : ChatEvent → Bool
  | ChatEvent.errorPart _ => true
  | _ => false

/-- Is the event a DATA_PART. -/
def isDataEvent : ChatEvent → Bool
  | ChatEvent.dataPart _ => true
  | _ => false

/-- Is the event the FINISHED annotation. -/
def isFinishedEvent : ChatEvent → Bool
  | ChatEvent.messageAnnotationsPart ChatMessageSate.FINISHED => true
  | _ => false

/-- Number of ERROR_PART events in a stream. -/
def countErrors (l : List ChatEvent) : Nat := (l.filter isErrorEvent).length

/-- Number of DATA_PART events in a stream. -/
def countData (l : List ChatEvent) : Nat := (l.filter isDataEvent).length

/-- Whether a FINISHED annotation occurs in a stream. -/
def containsFinished (l : List ChatEvent) : Bool := l.any isFinishedEvent

/-- The stream ends with a FINISHED annotation immediately followed by a
DATA_PART. -/
def endsFinishedThenData (l : List ChatEvent) : Bool :=
  match l.reverse with
  | ChatEvent.dataPart _ :: ChatEvent.messageAnnotationsPart ChatMessageSate.FINISHED :: _ => true
  | _ => false

/-- The stream's last event is an ERROR_PART. -/
def lastIsError (l : List ChatEvent) : Bool :=
  match l.reverse with
  | ChatEvent.errorPart _ :: _ => true
  | _ => false

/-- Normal terminal outcome: FINISHED then final DATA_PART, and no
ERROR_PART anywhere in the stream. -/
def normalTerminal (l : List ChatEvent) : Bool :=
  endsFinishedThenData l && (countErrors l == 0)

/-- Error terminal outcome: exactly one ERROR_PART, and it closes the
stream. -/
def errorTerminal (l : List ChatEvent) : Bool :=
  lastIsError l && (countErrors l == 1)

/-- The user-message row persisted at the start of a turn for chat cid
and question q (chat.py lines 167-174). -/
def persistedUserMsg (db : DBState) (cid : Nat) (q : String) : DBChatMessage :=
  (createMessage db cid roleUser q "" none).2

/-- The empty assistant placeholder persisted right after the user
message (chat.py lines 175-183). -/
def persistedAsstMsg (env : Env) (db : DBState) (cid : Nat) (q : String) : DBChatMessage :=
  (createMessage (createMessage db cid roleUser q "" none).1 cid roleAssistant ""
    (if env.enableLangfuse then env.traceUrl else "") none).2

/-- The finalized assistant message committed at the end of a normal
turn (chat.py lines 373-378). -/
def finalizedAsstMsg (env : Env) (db : DBState) (cid : Nat) (q : String) : DBChatMessage :=
  { persistedAsstMsg env db cid q with
    content := String.join env.tokens, sources := env.sourceDocs, finished := true }

/-- The chat identifier argument resolves: absent, or present in the
store. -/
def ResolveOk (db : DBState) : Option Nat → Prop
  | none => True
  | some cid => ∃ c, db.chats.find? (fun x => x.id == cid) = some c

/-- A turn that completes normally: every external call that the
configured pipeline makes succeeds and the token stream ends without
raising. -/
def NormalRun (svc : ChatServiceState) (env : Env) : Prop :=
  (svc.kg.enabled = true → svc.kg.using_intent_search = true →
    ∃ r, env.intentSearch = Except.ok r) ∧
  (svc.kg.enabled = true → svc.kg.using_intent_search = false →
    ∃ r, env.weightedRetrieve = Except.ok r) ∧
  (∃ r, env.refine = Except.ok r) ∧ env.queryCall = Except.ok () ∧ env.streamExc = false

/-- A knowledge-graph configuration with the feature disabled. -/
def sampleKG : KnowledgeGraphConfig :=
  { enabled := false, using_intent_search := false, depth := 2, include_meta := false
  , with_degree := false, relationship_meta_filters := [] }

/-- A service state resolved without a reranker and with the graph
feature disabled. -/
def sampleSvc : ChatServiceState := ChatService.init { hasReranker := false, kg := sampleKG }

/-- An environment in which every collaborator call succeeds. -/
def sampleEnv : Env :=
  { enableLangfuse := false, traceUrl := "", userId := none, browserId := "b"
  , intentSearch := Except.ok ([], []), intentRendered := ""
  , weightedRetrieve := Except.ok ([], [], []), normalRendered := ""
  , refine := Except.ok "refined", queryCall := Except.ok (), sourceDocs := []
  , tokens := ["Hello"], streamExc := false }

/-- sampleEnv with the fast-model refinement call raising. -/
def envRefineFail : Env := { sampleEnv with refine := Except.error () }

/-- The empty store. -/
def emptyDb : DBState := { nextId := 0, chats := [], messages := [] }

/-- A knowledge-graph configuration carrying nonempty
relationship-metadata filters. -/
def cexKG : KnowledgeGraphConfig :=
  { enabled := true, using_intent_search := false, depth := 2, include_meta := true
  , with_degree := true, relationship_meta_filters := [("source", "docs")] }

/-- A persisted user-role message. -/
def cexUserMsg : DBChatMessage :=
  { id := 0, chat_id := 0, role := "user", content := "q", trace_url := ""
  , ordinal := 1, sources := [], finished := false }

/-- Brace doubling as a per-character map: the composed effect of the
first two str.replace passes. -/
def escBrace (c : Char) : List Char :=
  if c = '\x7b' then ['\x7b', '\x7b'] else if c = '\x7d' then ['\x7d', '\x7d'] else [c]

theorem countErrors_append (a b : List ChatEvent) :
    countErrors (a ++ b) = countErrors a + countErrors b := by
  simp [countErrors, List.filter_append]

theorem countData_append (a b : List ChatEvent) :
    countData (a ++ b) = countData a + countData b := by
  simp [countData, List.filter_append]

theorem containsFinished_append (a b : List ChatEvent) :
    containsFinished (a ++ b) = (containsFinished a || containsFinished b) := by
  simp [containsFinished, List.any_append]

theorem countErrors_map_text (l : List String) :
    countErrors (l.map ChatEvent.textPart) = 0 := by
  induction l with
  | nil => rfl
  | cons x xs ih => simp only [List.map_cons, countErrors, List.filter, isErrorEvent] at ih ⊢; exact ih

theorem countData_map_text (l : List String) :
    countData (l.map ChatEvent.textPart) = 0 := by
  induction l with
  | nil => rfl
  | cons x xs ih => simp only [List.map_cons, countData, List.filter, isDataEvent] at ih ⊢; exact ih

theorem containsFinished_map_text (l : List String) :
    containsFinished (l.map ChatEvent.textPart) = false := by
  induction l with
  | nil => rfl
  | cons x xs ih => simp only [List.map_cons, containsFinished, List.any_cons, isFinishedEvent] at ih ⊢; simp [ih]

theorem endsFinishedThenData_append_pair (l : List ChatEvent) (d : ChatStreamDataPayload) :
    endsFinishedThenData
      (l ++ [ChatEvent.messageAnnotationsPart ChatMessageSate.FINISHED, ChatEvent.dataPart d]) =
      true := by
  simp [endsFinishedThenData, List.reverse_append]

theorem lastIsError_append (l : List ChatEvent) (m : String) :
    lastIsError (l ++ [ChatEvent.errorPart m]) = true := by
  simp [lastIsError, List.reverse_append]

theorem _chat_afterRetrieve_countErrors (svc : ChatServiceState) (env : Env)
    (chatObj : DBChat) (userMsg asstMsg : DBChatMessage)
    (evAcc : List ChatEvent) (kg : KGResult) (db : DBState) :
    countErrors (ChatService._chat_afterRetrieve svc env chatObj userMsg asstMsg evAcc kg db).events =
      countErrors evAcc := by
  unfold ChatService._chat_afterRetrieve
  rcases env.refine with _ | r
  · simp [countErrors_append, countErrors, isErrorEvent]
  · rcases env.queryCall with _ | u
    · simp [countErrors_append, countErrors, isErrorEvent]
    · by_cases h3 : env.streamExc <;>
        simp [h3, countErrors_append, countErrors_map_text, countErrors, isErrorEvent]

theorem _chat_afterRetrieve_normal_shape (svc : ChatServiceState) (env : Env)
    (chatObj : DBChat) (userMsg asstMsg : DBChatMessage)
    (evAcc : List ChatEvent) (kg : KGResult) (db : DBState)
    (h : (ChatService._chat_afterRetrieve svc env chatObj userMsg asstMsg evAcc kg db).exc = none) :
    ∃ l d,
      (ChatService._chat_afterRetrieve svc env chatObj userMsg asstMsg evAcc kg db).events =
        l ++ [ChatEvent.messageAnnotationsPart ChatMessageSate.FINISHED, ChatEvent.dataPart d] := by
  cases h1 : env.refine with
  | error e => simp [ChatService._chat_afterRetrieve, h1] at h
  | ok r =>
    cases h2 : env.queryCall with
    | error e => simp [ChatService._chat_afterRetrieve, h1, h2] at h
    | ok u =>
      cases h3 : env.streamExc
      · refine ⟨evAcc ++ [ChatEvent.messageAnnotationsPart ChatMessageSate.REFINE_QUESTION,
            ChatEvent.messageAnnotationsPart ChatMessageSate.SEARCH_RELATED_DOCUMENTS,
            ChatEvent.messageAnnotationsPart ChatMessageSate.SOURCE_NODES] ++
            env.tokens.map ChatEvent.textPart,
          ⟨chatObj, userMsg, { asstMsg with content := String.join env.tokens, sources := env.sourceDocs, finished := true }⟩, ?_⟩
        simp [ChatService._chat_afterRetrieve, h1, h2, h3]
      · simp [ChatService._chat_afterRetrieve, h1, h2, h3] at h

theorem _chat_afterRetrieve_exc (svc : ChatServiceState) (env : Env)
    (chatObj : DBChat) (userMsg asstMsg : DBChatMessage)
    (evAcc : List ChatEvent) (kg : KGResult) (db : DBState)
    (h : (ChatService._chat_afterRetrieve svc env chatObj userMsg asstMsg evAcc kg db).exc = some ()) :
    (ChatService._chat_afterRetrieve svc env chatObj userMsg asstMsg evAcc kg db).db = db ∧
    containsFinished (ChatService._chat_afterRetrieve svc env chatObj userMsg asstMsg evAcc kg db).events =
      containsFinished evAcc ∧
    countData (ChatService._chat_afterRetrieve svc env chatObj userMsg asstMsg evAcc kg db).events =
      countData evAcc := by
  cases h1 : env.refine with
  | error e =>
    simp [ChatService._chat_afterRetrieve, h1, containsFinished_append, countData_append,
      containsFinished, countData, isFinishedEvent, isDataEvent]
  | ok r =>
    cases h2 : env.queryCall with
    | error e =>
      simp [ChatService._chat_afterRetrieve, h1, h2, containsFinished_append, countData_append,
        containsFinished, countData, isFinishedEvent, isDataEvent]
    | ok u =>
      cases h3 : env.streamExc
      · simp [ChatService._chat_afterRetrieve, h1, h2, h3] at h
      · simp [ChatService._chat_afterRetrieve, h1, h2, h3, containsFinished_append,
          countData_append, containsFinished_map_text, countData_map_text,
          containsFinished, countData, isFinishedEvent, isDataEvent]

theorem _chat_afterResolve_countErrors (svc : ChatServiceState) (env : Env)
    (chatObj : DBChat) (q : String) (hist : List InMsg) (db : DBState) :
    countErrors (ChatService._chat_afterResolve svc env chatObj q hist db).events = 0 := by
  cases hk : svc.kg.enabled
  · simp only [ChatService._chat_afterResolve, hk, Bool.false_eq_true, if_false]
    rw [_chat_afterRetrieve_countErrors]
    simp [countErrors, isErrorEvent]
  · cases hi : svc.kg.using_intent_search
    · cases hW : env.weightedRetrieve with
      | error e =>
        simp only [ChatService._chat_afterResolve, hk, hi, hW, Bool.false_eq_true, if_false,
          if_true]
        simp [countErrors, isErrorEvent]
      | ok wr =>
        simp only [ChatService._chat_afterResolve, hk, hi, hW, Bool.false_eq_true, if_false,
          if_true]
        rw [_chat_afterRetrieve_countErrors]
        simp [countErrors, isErrorEvent]
    · cases hI : env.intentSearch with
      | error e =>
        simp only [ChatService._chat_afterResolve, hk, hi, hI, if_true]
        simp [countErrors, isErrorEvent]
      | ok er =>
        simp only [ChatService._chat_afterResolve, hk, hi, hI, if_true]
        rw [_chat_afterRetrieve_countErrors]
        simp [countErrors, isErrorEvent]

theorem _chat_afterResolve_normal_shape (svc : ChatServiceState) (env : Env)
    (chatObj : DBChat) (q : String) (hist : List InMsg) (db : DBState)
    (h : (ChatService._chat_afterResolve svc env chatObj q hist db).exc = none) :
    ∃ l d,
      (ChatService._chat_afterResolve svc env chatObj q hist db).events =
        l ++ [ChatEvent.messageAnnotationsPart ChatMessageSate.FINISHED, ChatEvent.dataPart d] := by
  cases hk : svc.kg.enabled
  · simp only [ChatService._chat_afterResolve, hk, Bool.false_eq_true, if_false] at h ⊢
    exact _chat_afterRetrieve_normal_shape _ _ _ _ _ _ _ _ h
  · cases hi : svc.kg.using_intent_search
    · cases hW : env.weightedRetrieve with
      | error e =>
        simp only [ChatService._chat_afterResolve, hk, hi, hW, Bool.false_eq_true, if_false,
          if_true] at h
        simp at h
      | ok wr =>
        simp only [ChatService._chat_afterResolve, hk, hi, hW, Bool.false_eq_true, if_false,
          if_true] at h ⊢
        exact _chat_afterRetrieve_normal_shape _ _ _ _ _ _ _ _ h
    · cases hI : env.intentSearch with
      | error e =>
        simp only [ChatService._chat_afterResolve, hk, hi, hI, if_true] at h
        simp at h
      | ok er =>
        simp only [ChatService._chat_afterResolve, hk, hi, hI, if_true] at h ⊢
        exact _chat_afterRetrieve_normal_shape _ _ _ _ _ _ _ _ h

theorem _chat_afterResolve_exc (svc : ChatServiceState) (env : Env)
    (chatObj : DBChat) (q : String) (hist : List InMsg) (db : DBState)
    (h : (ChatService._chat_afterResolve svc env chatObj q hist db).exc = some ()) :
    (∃ u a, (ChatService._chat_afterResolve svc env chatObj q hist db).db.messages =
        db.messages ++ [u, a] ∧
      u.role = roleUser ∧ u.content = q ∧ u.finished = false ∧
      a.role = roleAssistant ∧ a.content = "" ∧ a.finished = false) ∧
    containsFinished (ChatService._chat_afterResolve svc env chatObj q hist db).events = false ∧
    countData (ChatService._chat_afterResolve svc env chatObj q hist db).events = 1 := by
  have hpersist : ∀ (d2 : DBState),
      d2 = (createMessage (createMessage db chatObj.id roleUser q "" none).1 chatObj.id
        roleAssistant "" (if env.enableLangfuse then env.traceUrl else "") none).1 →
      ∃ u a, d2.messages = db.messages ++ [u, a] ∧
        u.role = roleUser ∧ u.content = q ∧ u.finished = false ∧
        a.role = roleAssistant ∧ a.content = "" ∧ a.finished = false := by
    intro d2 ho
    refine ⟨(createMessage db chatObj.id roleUser q "" none).2,
      (createMessage (createMessage db chatObj.id roleUser q "" none).1 chatObj.id
        roleAssistant "" (if env.enableLangfuse then env.traceUrl else "") none).2,
      ?_, ?_, ?_, ?_, ?_, ?_, ?_⟩ <;>
      simp [ho, createMessage]
  have hev0 : ∀ (chatObjx : DBChat) (um am : DBChatMessage),
      containsFinished
        [ChatEvent.textPart ""
        , ChatEvent.dataPart { chat := chatObjx, user_message := um, assistant_message := am }
        , ChatEvent.messageAnnotationsPart ChatMessageSate.TRACE] = false ∧
      countData
        [ChatEvent.textPart ""
        , ChatEvent.dataPart { chat := chatObjx, user_message := um, assistant_message := am }
        , ChatEvent.messageAnnotationsPart ChatMessageSate.TRACE] = 1 := by
    intro chatObjx um am
    constructor
    · simp [containsFinished, isFinishedEvent]
    · simp [countData, isDataEvent]
  cases hk : svc.kg.enabled
  · simp only [ChatService._chat_afterResolve, hk, Bool.false_eq_true, if_false] at h ⊢
    obtain ⟨hdb, hcf, hcd⟩ := _chat_afterRetrieve_exc _ _ _ _ _ _ _ _ h
    refine ⟨hpersist _ hdb, ?_, ?_⟩
    · rw [hcf]; exact (hev0 _ _ _).1
    · rw [hcd]; exact (hev0 _ _ _).2
  · cases hi : svc.kg.using_intent_search
    · cases hW : env.weightedRetrieve with
      | error e =>
        simp only [ChatService._chat_afterResolve, hk, hi, hW, Bool.false_eq_true, if_false,
          if_true] at h ⊢
        refine ⟨hpersist _ rfl, (hev0 _ _ _).1, (hev0 _ _ _).2⟩
      | ok wr =>
        simp only [ChatService._chat_afterResolve, hk, hi, hW, Bool.false_eq_true, if_false,
          if_true] at h ⊢
        obtain ⟨hdb, hcf, hcd⟩ := _chat_afterRetrieve_exc _ _ _ _ _ _ _ _ h
        refine ⟨hpersist _ hdb, ?_, ?_⟩
        · rw [hcf]; exact (hev0 _ _ _).1
        · rw [hcd]; exact (hev0 _ _ _).2
    · cases hI : env.intentSearch with
      | error e =>
        simp only [ChatService._chat_afterResolve, hk, hi, hI, if_true] at h ⊢
        refine ⟨hpersist _ rfl, (hev0 _ _ _).1, (hev0 _ _ _).2⟩
      | ok er =>
        simp only [ChatService._chat_afterResolve, hk, hi, hI, if_true] at h ⊢
        obtain ⟨hdb, hcf, hcd⟩ := _chat_afterRetrieve_exc _ _ _ _ _ _ _ _ h
        refine ⟨hpersist _ hdb, ?_, ?_⟩
        · rw [hcf]; exact (hev0 _ _ _).1
        · rw [hcd]; exact (hev0 _ _ _).2

theorem chatWrap_terminal_xor (o : ChatOutcome)
    (h1 : countErrors o.events = 0)
    (h2 : o.exc = none → ∃ l d, o.events =
      l ++ [ChatEvent.messageAnnotationsPart ChatMessageSate.FINISHED, ChatEvent.dataPart d]) :
    Xor' (normalTerminal (ChatService.chatWrap o).events = true)
      (errorTerminal (ChatService.chatWrap o).events = true) := by
  cases hx : o.exc with
  | none =>
    obtain ⟨l, d, hshape⟩ := h2 hx
    have hefd : endsFinishedThenData o.events = true := by
      rw [hshape]; exact endsFinishedThenData_append_pair _ _
    left
    constructor
    · simp [ChatService.chatWrap, hx, normalTerminal, hefd, h1]
    · intro hc
      simp only [ChatService.chatWrap, hx] at hc
      simp [errorTerminal, h1] at hc
  | some u =>
    have hev : (ChatService.chatWrap o).events =
        o.events ++ [ChatEvent.errorPart genericErrorMessage] := by
      simp [ChatService.chatWrap, hx]
    have hcount : countErrors (o.events ++ [ChatEvent.errorPart genericErrorMessage]) = 1 := by
      rw [countErrors_append, h1]; rfl
    right
    constructor
    · simp [errorTerminal, hev, lastIsError_append, hcount]
    · intro hc
      rw [hev] at hc
      simp [normalTerminal, hcount] at hc

/-- C1: every stream of ChatService.chat, consumed to completion, ends
in exactly one of the two terminal outcomes: either a FINISHED
annotation followed by a final DATA_PART with no ERROR_PART anywhere,
or a closing ERROR_PART that is the only ERROR_PART of the stream —
never both and never neither. -/
theorem chat_terminal_outcome_exclusive (svc : ChatServiceState) (env : Env)
    (msgs : List InMsg) (chat_id : Option Nat) (db0 : DBState) :
    Xor' (normalTerminal (ChatService.chat svc env msgs chat_id db0).events = true)
      (errorTerminal (ChatService.chat svc env msgs chat_id db0).events = true) := by
  unfold ChatService.chat ChatService._chat
  cases hL : msgs.getLast? with
  | none =>
    exact chatWrap_terminal_xor _ (by simp [countErrors]) (by intro hc; simp at hc)
  | some last =>
    cases chat_id with
    | some cid =>
      cases hf : db0.chats.find? (fun c => c.id == cid) with
      | none =>
        dsimp only
        rw [hf]
        refine Or.inr ⟨?_, ?_⟩
        · simp [ChatService.chatWrap, errorTerminal, lastIsError, countErrors, isErrorEvent]
        · intro hc
          simp [ChatService.chatWrap, normalTerminal, endsFinishedThenData, countErrors,
            isErrorEvent] at hc
      | some chatObj =>
        dsimp only
        rw [hf]
        exact chatWrap_terminal_xor _ (_chat_afterResolve_countErrors _ _ _ _ _ _)
          (_chat_afterResolve_normal_shape _ _ _ _ _ _)
    | none =>
      dsimp only
      exact chatWrap_terminal_xor _ (_chat_afterResolve_countErrors _ _ _ _ _ _)
        (_chat_afterResolve_normal_shape _ _ _ _ _ _)

theorem _chat_afterRetrieve_normal_events (svc : ChatServiceState) (env : Env)
    (chatObj : DBChat) (userMsg asstMsg : DBChatMessage)
    (evAcc : List ChatEvent) (kg : KGResult) (db : DBState)
    (r : String) (h1 : env.refine = Except.ok r) (h2 : env.queryCall = Except.ok ())
    (h3 : env.streamExc = false) :
    ChatService._chat_afterRetrieve svc env chatObj userMsg asstMsg evAcc kg db =
      { events := evAcc ++
          [ChatEvent.messageAnnotationsPart ChatMessageSate.REFINE_QUESTION
          , ChatEvent.messageAnnotationsPart ChatMessageSate.SEARCH_RELATED_DOCUMENTS
          , ChatEvent.messageAnnotationsPart ChatMessageSate.SOURCE_NODES] ++
          env.tokens.map ChatEvent.textPart ++
          [ChatEvent.messageAnnotationsPart ChatMessageSate.FINISHED
          , ChatEvent.dataPart ⟨chatObj, userMsg, { asstMsg with content := String.join env.tokens, sources := env.sourceDocs, finished := true }⟩]
      , db := updateMessage db { asstMsg with content := String.join env.tokens, sources := env.sourceDocs, finished := true }
      , exc := none, kg := some kg
      , queryArgs := some (svc.nodePostprocessors, svc.similarityTopK) } := by
  simp [ChatService._chat_afterRetrieve, h1, h2, h3]

theorem _chat_afterResolve_normal_events (svc : ChatServiceState) (env : Env)
    (chatObj : DBChat) (q : String) (hist : List InMsg) (db : DBState)
    (hN : NormalRun svc env) :
    (ChatService._chat_afterResolve svc env chatObj q hist db).events =
      [ChatEvent.textPart ""
      , ChatEvent.dataPart ⟨chatObj, persistedUserMsg db chatObj.id q, persistedAsstMsg env db chatObj.id q⟩
      , ChatEvent.messageAnnotationsPart ChatMessageSate.TRACE
      , ChatEvent.messageAnnotationsPart ChatMessageSate.REFINE_QUESTION
      , ChatEvent.messageAnnotationsPart ChatMessageSate.SEARCH_RELATED_DOCUMENTS
      , ChatEvent.messageAnnotationsPart ChatMessageSate.SOURCE_NODES] ++
      env.tokens.map ChatEvent.textPart ++
      [ChatEvent.messageAnnotationsPart ChatMessageSate.FINISHED
      , ChatEvent.dataPart ⟨chatObj, persistedUserMsg db chatObj.id q, finalizedAsstMsg env db chatObj.id q⟩] ∧
    (ChatService._chat_afterResolve svc env chatObj q hist db).exc = none := by
  obtain ⟨hInt, hWfun, ⟨r, hr⟩, hq, hs⟩ := hN
  cases hk : svc.kg.enabled
  · simp only [ChatService._chat_afterResolve, hk, Bool.false_eq_true, if_false]
    rw [_chat_afterRetrieve_normal_events _ _ _ _ _ _ _ _ r hr hq hs]
    constructor
    · simp [persistedUserMsg, persistedAsstMsg, finalizedAsstMsg]
    · rfl
  · cases hi : svc.kg.using_intent_search
    · obtain ⟨wr, hW⟩ := hWfun hk hi
      simp only [ChatService._chat_afterResolve, hk, hi, hW, Bool.false_eq_true, if_false,
        if_true]
      rw [_chat_afterRetrieve_normal_events _ _ _ _ _ _ _ _ r hr hq hs]
      constructor
      · simp [persistedUserMsg, persistedAsstMsg, finalizedAsstMsg]
      · rfl
    · obtain ⟨er, hI⟩ := hInt hk hi
      simp only [ChatService._chat_afterResolve, hk, hi, hI, if_true]
      rw [_chat_afterRetrieve_normal_events _ _ _ _ _ _ _ _ r hr hq hs]
      constructor
      · simp [persistedUserMsg, persistedAsstMsg, finalizedAsstMsg]
      · rfl

theorem chatWrap_none (o : ChatOutcome) (h : o.exc = none) : ChatService.chatWrap o = o := by
  simp [ChatService.chatWrap, h]

theorem chatWrap_kg (o : ChatOutcome) : (ChatService.chatWrap o).kg = o.kg := by
  cases h : o.exc <;> simp [ChatService.chatWrap, h]

theorem chatWrap_queryArgs (o : ChatOutcome) :
    (ChatService.chatWrap o).queryArgs = o.queryArgs := by
  cases h : o.exc <;> simp [ChatService.chatWrap, h]

theorem chatWrap_db (o : ChatOutcome) : (ChatService.chatWrap o).db = o.db := by
  cases h : o.exc <;> simp [ChatService.chatWrap, h]

/-- C2: on a turn that completes normally the stream is exactly: empty
TEXT_PART, DATA_PART, TRACE annotation, REFINE_QUESTION annotation
(emitted once retrieval has completed), SEARCH_RELATED_DOCUMENTS
annotation, SOURCE_NODES annotation, the answer-body TEXT_PART
fragments in order, the FINISHED annotation, and the final DATA_PART.
In particular the SOURCE_NODES annotation precedes every answer-body
TEXT fragment and the initial DATA_PART precedes FINISHED. -/
theorem chat_normal_event_order (svc : ChatServiceState) (env : Env)
    (msgs : List InMsg) (chat_id : Option Nat) (db0 : DBState) (last : InMsg)
    (hL : msgs.getLast? = some last) (hR : ResolveOk db0 chat_id) (hN : NormalRun svc env) :
    ∃ d0 d1,
      (ChatService.chat svc env msgs chat_id db0).events =
        [ChatEvent.textPart "", ChatEvent.dataPart d0
        , ChatEvent.messageAnnotationsPart ChatMessageSate.TRACE
        , ChatEvent.messageAnnotationsPart ChatMessageSate.REFINE_QUESTION
        , ChatEvent.messageAnnotationsPart ChatMessageSate.SEARCH_RELATED_DOCUMENTS
        , ChatEvent.messageAnnotationsPart ChatMessageSate.SOURCE_NODES] ++
        env.tokens.map ChatEvent.textPart ++
        [ChatEvent.messageAnnotationsPart ChatMessageSate.FINISHED
        , ChatEvent.dataPart d1] := by
  unfold ChatService.chat ChatService._chat
  rw [hL]
  cases chat_id with
  | some cid =>
    obtain ⟨c, hf⟩ := hR
    dsimp only
    rw [hf]
    dsimp only
    obtain ⟨hev, hexc⟩ :=
      _chat_afterResolve_normal_events svc env c last.content
        ((messagesOfChat db0 cid).map (fun m => { role := m.role, content := m.content })) db0 hN
    refine ⟨⟨c, persistedUserMsg db0 c.id last.content, persistedAsstMsg env db0 c.id last.content⟩,
      ⟨c, persistedUserMsg db0 c.id last.content, finalizedAsstMsg env db0 c.id last.content⟩, ?_⟩
    rw [chatWrap_none _ hexc, hev]
  | none =>
    dsimp only
    obtain ⟨hev, hexc⟩ :=
      _chat_afterResolve_normal_events svc env
        (createChat db0 (last.content.take 100) env.userId env.browserId).2 last.content
        msgs.dropLast
        (seedHistory (createChat db0 (last.content.take 100) env.userId env.browserId).1
          (createChat db0 (last.content.take 100) env.userId env.browserId).2.id msgs.dropLast)
        hN
    refine ⟨⟨(createChat db0 (last.content.take 100) env.userId env.browserId).2,
        persistedUserMsg
          (seedHistory (createChat db0 (last.content.take 100) env.userId env.browserId).1
            (createChat db0 (last.content.take 100) env.userId env.browserId).2.id msgs.dropLast)
          (createChat db0 (last.content.take 100) env.userId env.browserId).2.id last.content,
        persistedAsstMsg env
          (seedHistory (createChat db0 (last.content.take 100) env.userId env.browserId).1
            (createChat db0 (last.content.take 100) env.userId env.browserId).2.id msgs.dropLast)
          (createChat db0 (last.content.take 100) env.userId env.browserId).2.id last.content⟩,
      ⟨(createChat db0 (last.content.take 100) env.userId env.browserId).2,
        persistedUserMsg
          (seedHistory (createChat db0 (last.content.take 100) env.userId env.browserId).1
            (createChat db0 (last.content.take 100) env.userId env.browserId).2.id msgs.dropLast)
          (createChat db0 (last.content.take 100) env.userId env.browserId).2.id last.content,
        finalizedAsstMsg env
          (seedHistory (createChat db0 (last.content.take 100) env.userId env.browserId).1
            (createChat db0 (last.content.take 100) env.userId env.browserId).2.id msgs.dropLast)
          (createChat db0 (last.content.take 100) env.userId env.browserId).2.id last.content⟩, ?_⟩
    rw [chatWrap_none _ hexc, hev]

theorem _chat_afterResolve_kg_disabled (svc : ChatServiceState) (env : Env)
    (chatObj : DBChat) (q : String) (hist : List InMsg) (db : DBState)
    (hk : svc.kg.enabled = false) (r : String) (hr : env.refine = Except.ok r)
    (hq : env.queryCall = Except.ok ()) (hs : env.streamExc = false) :
    (ChatService._chat_afterResolve svc env chatObj q hist db).kg =
      some { entities := [], relations := [], chunks := some [], context := "" } := by
  simp only [ChatService._chat_afterResolve, hk, Bool.false_eq_true, if_false]
  rw [_chat_afterRetrieve_normal_events _ _ _ _ _ _ _ _ r hr hq hs]

/-- C7: with the knowledge-graph feature disabled the retrieval stage
yields empty entities, relationships and chunks and an empty
graph-knowledge context, this is not an error, and the turn still runs
through refinement and generation to the FINISHED annotation and the
final DATA_PART. -/
theorem chat_kg_disabled_completes (svc : ChatServiceState) (env : Env)
    (msgs : List InMsg) (chat_id : Option Nat) (db0 : DBState) (last : InMsg)
    (hk : svc.kg.enabled = false)
    (hL : msgs.getLast? = some last) (hR : ResolveOk db0 chat_id) (hN : NormalRun svc env) :
    (ChatService.chat svc env msgs chat_id db0).kg =
      some { entities := [], relations := [], chunks := some [], context := "" } ∧
    ∃ d0 d1,
      (ChatService.chat svc env msgs chat_id db0).events =
        [ChatEvent.textPart "", ChatEvent.dataPart d0
        , ChatEvent.messageAnnotationsPart ChatMessageSate.TRACE
        , ChatEvent.messageAnnotationsPart ChatMessageSate.REFINE_QUESTION
        , ChatEvent.messageAnnotationsPart ChatMessageSate.SEARCH_RELATED_DOCUMENTS
        , ChatEvent.messageAnnotationsPart ChatMessageSate.SOURCE_NODES] ++
        env.tokens.map ChatEvent.textPart ++
        [ChatEvent.messageAnnotationsPart ChatMessageSate.FINISHED
        , ChatEvent.dataPart d1] := by
  obtain ⟨hInt, hWfun, ⟨r, hr⟩, hq, hs⟩ := hN
  constructor
  · unfold ChatService.chat ChatService._chat
    rw [hL]
    cases chat_id with
    | some cid =>
      obtain ⟨c, hf⟩ := hR
      dsimp only
      rw [hf]
      dsimp only
      rw [chatWrap_kg]
      exact _chat_afterResolve_kg_disabled _ _ _ _ _ _ hk r hr hq hs
    | none =>
      dsimp only
      rw [chatWrap_kg]
      exact _chat_afterResolve_kg_disabled _ _ _ _ _ _ hk r hr hq hs
  · exact chat_normal_event_order svc env msgs chat_id db0 last hL hR
      ⟨hInt, hWfun, ⟨r, hr⟩, hq, hs⟩

theorem _chat_afterRetrieve_queryArgs (svc : ChatServiceState) (env : Env)
    (chatObj : DBChat) (userMsg asstMsg : DBChatMessage)
    (evAcc : List ChatEvent) (kg : KGResult) (db : DBState)
    (a : List PostProcessor × Nat)
    (h : (ChatService._chat_afterRetrieve svc env chatObj userMsg asstMsg evAcc kg db).queryArgs =
      some a) :
    a = (svc.nodePostprocessors, svc.similarityTopK) := by
  cases h1 : env.refine with
  | error e => simp [ChatService._chat_afterRetrieve, h1] at h
  | ok r =>
    cases h2 : env.queryCall with
    | error e =>
      simp [ChatService._chat_afterRetrieve, h1, h2] at h
      exact h.symm
    | ok u =>
      cases h3 : env.streamExc <;>
        (simp [ChatService._chat_afterRetrieve, h1, h2, h3] at h; exact h.symm)

theorem _chat_afterResolve_queryArgs (svc : ChatServiceState) (env : Env)
    (chatObj : DBChat) (q : String) (hist : List InMsg) (db : DBState)
    (a : List PostProcessor × Nat)
    (h : (ChatService._chat_afterResolve svc env chatObj q hist db).queryArgs = some a) :
    a = (svc.nodePostprocessors, svc.similarityTopK) := by
  cases hk : svc.kg.enabled
  · simp only [ChatService._chat_afterResolve, hk, Bool.false_eq_true, if_false] at h
    exact _chat_afterRetrieve_queryArgs _ _ _ _ _ _ _ _ _ h
  · cases hi : svc.kg.using_intent_search
    · cases hW : env.weightedRetrieve with
      | error e =>
        simp only [ChatService._chat_afterResolve, hk, hi, hW, Bool.false_eq_true, if_false,
          if_true] at h
        simp at h
      | ok wr =>
        simp only [ChatService._chat_afterResolve, hk, hi, hW, Bool.false_eq_true, if_false,
          if_true] at h
        exact _chat_afterRetrieve_queryArgs _ _ _ _ _ _ _ _ _ h
    · cases hI : env.intentSearch with
      | error e =>
        simp only [ChatService._chat_afterResolve, hk, hi, hI, if_true] at h
        simp at h
      | ok er =>
        simp only [ChatService._chat_afterResolve, hk, hi, hI, if_true] at h
        exact _chat_afterRetrieve_queryArgs _ _ _ _ _ _ _ _ _ h

theorem chat_queryArgs (svc : ChatServiceState) (env : Env) (msgs : List InMsg)
    (chat_id : Option Nat) (db0 : DBState) (a : List PostProcessor × Nat)
    (h : (ChatService.chat svc env msgs chat_id db0).queryArgs = some a) :
    a = (svc.nodePostprocessors, svc.similarityTopK) := by
  rw [ChatService.chat, chatWrap_queryArgs] at h
  unfold ChatService._chat at h
  cases hL : msgs.getLast? with
  | none => rw [hL] at h; simp at h
  | some last =>
    rw [hL] at h
    cases chat_id with
    | some cid =>
      cases hf : db0.chats.find? (fun c => c.id == cid) with
      | none =>
        dsimp only at h
        rw [hf] at h
        simp at h
      | some chatObj =>
        dsimp only at h
        rw [hf] at h
        exact _chat_afterResolve_queryArgs _ _ _ _ _ _ _ h
    | none =>
      dsimp only at h
      exact _chat_afterResolve_queryArgs _ _ _ _ _ _ _ h

/-- C4: ChatService.__init__ configures the vector-store query engine
from the reranker presence: with a reranker, similarity_top_k = 100 and
postprocessors [metadata filter, reranker] in that order; without one,
similarity_top_k = 10 and only the metadata filter.  _chat builds the
query engine with exactly these two values. -/
theorem chat_service_reranker_config (cfg : ChatEngineConfigM) :
    ((cfg.hasReranker = true →
      (ChatService.init cfg).nodePostprocessors =
        [PostProcessor.metadataFilter, PostProcessor.reranker] ∧
      (ChatService.init cfg).similarityTopK = 100) ∧
     (cfg.hasReranker = false →
      (ChatService.init cfg).nodePostprocessors = [PostProcessor.metadataFilter] ∧
      (ChatService.init cfg).similarityTopK = 10)) ∧
    ∀ (env : Env) (msgs : List InMsg) (chat_id : Option Nat) (db0 : DBState)
      (a : List PostProcessor × Nat),
      (ChatService.chat (ChatService.init cfg) env msgs chat_id db0).queryArgs = some a →
      a = ((ChatService.init cfg).nodePostprocessors, (ChatService.init cfg).similarityTopK) := by
  refine ⟨⟨?_, ?_⟩, ?_⟩
  · intro hcr; simp [ChatService.init, hcr]
  · intro hcr; simp [ChatService.init, hcr]
  · intro env msgs chat_id db0 a h
    exact chat_queryArgs _ _ _ _ _ _ h

theorem chatWrap_some (o : ChatOutcome) (h : o.exc = some ()) :
    (ChatService.chatWrap o).events = o.events ++ [ChatEvent.errorPart genericErrorMessage] := by
  simp [ChatService.chatWrap, h]

theorem _chat_exc_invariants (svc : ChatServiceState) (env : Env)
    (msgs : List InMsg) (chat_id : Option Nat) (db0 : DBState) (last : InMsg)
    (hL : msgs.getLast? = some last) (hR : ResolveOk db0 chat_id)
    (hx : (ChatService._chat svc env msgs chat_id db0).exc = some ()) :
    countErrors (ChatService._chat svc env msgs chat_id db0).events = 0 ∧
    containsFinished (ChatService._chat svc env msgs chat_id db0).events = false ∧
    countData (ChatService._chat svc env msgs chat_id db0).events = 1 ∧
    ∃ pre u a, (ChatService._chat svc env msgs chat_id db0).db.messages = pre ++ [u, a] ∧
      u.role = roleUser ∧ u.content = last.content ∧ u.finished = false ∧
      a.role = roleAssistant ∧ a.content = "" ∧ a.finished = false := by
  unfold ChatService._chat at hx ⊢
  rw [hL] at hx ⊢
  cases chat_id with
  | some cid =>
    obtain ⟨c, hf⟩ := hR
    dsimp only at hx ⊢
    rw [hf] at hx ⊢
    dsimp only at hx ⊢
    obtain ⟨⟨u, a, hmsg, hur, huc, huf, har, hac, haf⟩, hcf, hcd⟩ :=
      _chat_afterResolve_exc _ _ _ _ _ _ hx
    exact ⟨_chat_afterResolve_countErrors _ _ _ _ _ _, hcf, hcd,
      db0.messages, u, a, hmsg, hur, huc, huf, har, hac, haf⟩
  | none =>
    dsimp only at hx ⊢
    obtain ⟨⟨u, a, hmsg, hur, huc, huf, har, hac, haf⟩, hcf, hcd⟩ :=
      _chat_afterResolve_exc _ _ _ _ _ _ hx
    exact ⟨_chat_afterResolve_countErrors _ _ _ _ _ _, hcf, hcd,
      _, u, a, hmsg, hur, huc, huf, har, hac, haf⟩

/-- C3: if an unhandled error is raised after the user message and the
empty assistant placeholder were persisted (the fast model raising
during refinement is one such point), the stream ends with exactly one
ERROR_PART carrying the generic user-safe message, no FINISHED
annotation and no second DATA_PART are emitted, and the store still
holds the user message and the untouched empty placeholder (no update
committed, no rollback). -/
theorem chat_midstream_failure_contract (svc : ChatServiceState) (env : Env)
    (msgs : List InMsg) (chat_id : Option Nat) (db0 : DBState) (last : InMsg)
    (hL : msgs.getLast? = some last) (hR : ResolveOk db0 chat_id)
    (hx : (ChatService._chat svc env msgs chat_id db0).exc = some ()) :
    countErrors (ChatService.chat svc env msgs chat_id db0).events = 1 ∧
    (ChatService.chat svc env msgs chat_id db0).events.getLast? =
      some (ChatEvent.errorPart genericErrorMessage) ∧
    containsFinished (ChatService.chat svc env msgs chat_id db0).events = false ∧
    countData (ChatService.chat svc env msgs chat_id db0).events = 1 ∧
    ∃ pre u a, (ChatService.chat svc env msgs chat_id db0).db.messages = pre ++ [u, a] ∧
      u.role = roleUser ∧ u.content = last.content ∧ u.finished = false ∧
      a.role = roleAssistant ∧ a.content = "" ∧ a.finished = false := by
  obtain ⟨hce, hcf, hcd, pre, u, a, hmsg, hur, huc, huf, har, hac, haf⟩ :=
    _chat_exc_invariants svc env msgs chat_id db0 last hL hR hx
  have hev : (ChatService.chat svc env msgs chat_id db0).events =
      (ChatService._chat svc env msgs chat_id db0).events ++
        [ChatEvent.errorPart genericErrorMessage] := by
    rw [ChatService.chat]; exact chatWrap_some _ hx
  have hdb : (ChatService.chat svc env msgs chat_id db0).db =
      (ChatService._chat svc env msgs chat_id db0).db := by
    rw [ChatService.chat, chatWrap_db]
  refine ⟨?_, ?_, ?_, ?_, pre, u, a, ?_, hur, huc, huf, har, hac, haf⟩
  · rw [hev, countErrors_append, hce]; rfl
  · rw [hev]; simp
  · rw [hev, containsFinished_append, hcf]
    simp [containsFinished, isFinishedEvent]
  · rw [hev, countData_append, hcd]
    simp [countData, isDataEvent]
  · rw [hdb]; exact hmsg

/-- C5 (amended): with a nonempty message list and a supplied chat
identifier absent from the store, the whole outcome is the single
ERROR_PART("Chat not found") with the store untouched and no retrieval
or generation artifacts recorded. -/
theorem chat_not_found_single_error (svc : ChatServiceState) (env : Env)
    (msgs : List InMsg) (cid : Nat) (db0 : DBState) (last : InMsg)
    (hL : msgs.getLast? = some last)
    (hf : db0.chats.find? (fun c => c.id == cid) = none) :
    ChatService.chat svc env msgs (some cid) db0 =
      { events := [ChatEvent.errorPart chatNotFoundMessage], db := db0, exc := none
      , kg := none, queryArgs := none } := by
  unfold ChatService.chat ChatService._chat
  rw [hL]
  dsimp only
  rw [hf]
  rfl

/-- C5 counterexample: with an empty message list and an absent chat
identifier — an invocation inside the claim's stated scope — question
parsing raises before the repository lookup, so the single event is
the generic ERROR_PART, not ERROR_PART("Chat not found"). -/
theorem chat_not_found_empty_messages_cex :
    (emptyDb.chats.find? (fun c => c.id == 0) = none) ∧
    (ChatService.chat sampleSvc sampleEnv [] (some 0) emptyDb).events ≠
      [ChatEvent.errorPart chatNotFoundMessage] ∧
    (ChatService.chat sampleSvc sampleEnv [] (some 0) emptyDb).events =
      [ChatEvent.errorPart genericErrorMessage] := by
  decide

/-- C10: with the empty message list the caller is not crashed:
chat_messages[-1] raises before any store write, the top-level handler
converts the failure into the single generic ERROR_PART, and no chat or
message record is created. -/
theorem chat_empty_messages_safe (svc : ChatServiceState) (env : Env)
    (chat_id : Option Nat) (db0 : DBState) :
    (ChatService.chat svc env [] chat_id db0).events =
      [ChatEvent.errorPart genericErrorMessage] ∧
    (ChatService.chat svc env [] chat_id db0).db = db0 := by
  exact ⟨rfl, rfl⟩

/-- C9: a chat with no owning user is visible to every viewer including
the absent one; a chat owned by uid is visible to a present viewer
exactly when that viewer is a superuser or is the owner, and not
visible to the absent viewer.  The predicate is a pure function of its
two arguments. -/
theorem user_can_view_chat_spec (chat : DBChat) :
    (chat.user_id = none → ∀ u : Option User, user_can_view_chat chat u = true) ∧
    (∀ uid : Nat, chat.user_id = some uid →
      user_can_view_chat chat none = false ∧
      ∀ v : User, (user_can_view_chat chat (some v) = true ↔
        (v.is_superuser = true ∨ v.id = uid))) := by
  constructor
  · intro h u
    simp [user_can_view_chat, h]
  · intro uid h
    constructor
    · simp [user_can_view_chat, h]
    · intro v
      cases hsup : v.is_superuser
      · by_cases hid : uid = v.id
        · simp [user_can_view_chat, h, hsup, hid]
        · simp [user_can_view_chat, h, hsup, hid]
          intro heq
          exact hid heq.symm
      · simp [user_can_view_chat, h, hsup]

/-- C8 (amended): get_chat_message_subgraph returns the empty pair and
makes no retrieval call for a non-user message; for a user message it
performs one weighted retrieval whose depth, include_meta and
with_degree come from the chat's engine configuration, while
relationship_meta_filters is omitted at the call site and therefore
takes the store default rather than the configured value. -/
theorem subgraph_call_settings (cfg : KnowledgeGraphConfig)
    (res : List Nat × List Nat) (msg : DBChatMessage) :
    (msg.role ≠ roleUser → get_chat_message_subgraph cfg res msg = (([], []), none)) ∧
    (msg.role = roleUser →
      (get_chat_message_subgraph cfg res msg).1 = res ∧
      (get_chat_message_subgraph cfg res msg).2 =
        some { query := msg.content, history := [], depth := cfg.depth
             , include_meta := cfg.include_meta, with_degree := cfg.with_degree
             , relationship_meta_filters := [], with_chunks := false }) := by
  constructor
  · intro h
    simp [get_chat_message_subgraph, h]
  · intro h
    simp [get_chat_message_subgraph, h]

/-- C8 counterexample: a user message under a configuration whose
relationship-metadata filters are nonempty — the recorded retrieval
call carries the empty default, not the configured filters, so the
filter settings are not taken from the engine configuration. -/
theorem subgraph_meta_filters_not_from_config_cex :
    cexUserMsg.role = roleUser ∧
    ((get_chat_message_subgraph cexKG ([], []) cexUserMsg).2.map
      (fun args => args.relationship_meta_filters)) = some [] ∧
    cexKG.relationship_meta_filters = [("source", "docs")] ∧
    ([] : List (String × String)) ≠ [("source", "docs")] := by
  decide

theorem chat_normal_event_order_witness :
    (([{ role := "user", content := "What is X?" }] : List InMsg).getLast? =
      some { role := "user", content := "What is X?" }) ∧
    ResolveOk emptyDb none ∧ NormalRun sampleSvc sampleEnv ∧
    ∃ d0 d1,
      (ChatService.chat sampleSvc sampleEnv
        [{ role := "user", content := "What is X?" }] none emptyDb).events =
        [ChatEvent.textPart "", ChatEvent.dataPart d0
        , ChatEvent.messageAnnotationsPart ChatMessageSate.TRACE
        , ChatEvent.messageAnnotationsPart ChatMessageSate.REFINE_QUESTION
        , ChatEvent.messageAnnotationsPart ChatMessageSate.SEARCH_RELATED_DOCUMENTS
        , ChatEvent.messageAnnotationsPart ChatMessageSate.SOURCE_NODES] ++
        sampleEnv.tokens.map ChatEvent.textPart ++
        [ChatEvent.messageAnnotationsPart ChatMessageSate.FINISHED, ChatEvent.dataPart d1] :=
  ⟨rfl, trivial,
    ⟨fun _ _ => ⟨([], []), rfl⟩, fun _ _ => ⟨([], [], []), rfl⟩, ⟨"refined", rfl⟩, rfl, rfl⟩,
    chat_normal_event_order sampleSvc sampleEnv
      [{ role := "user", content := "What is X?" }] none emptyDb
      { role := "user", content := "What is X?" } rfl trivial
      ⟨fun _ _ => ⟨([], []), rfl⟩, fun _ _ => ⟨([], [], []), rfl⟩, ⟨"refined", rfl⟩, rfl, rfl⟩⟩

theorem chat_midstream_failure_contract_witness :
    (([{ role := "user", content := "hi" }] : List InMsg).getLast? =
      some { role := "user", content := "hi" }) ∧
    ResolveOk emptyDb none ∧
    (ChatService._chat sampleSvc envRefineFail
      [{ role := "user", content := "hi" }] none emptyDb).exc = some () ∧
    countErrors (ChatService.chat sampleSvc envRefineFail
      [{ role := "user", content := "hi" }] none emptyDb).events = 1 ∧
    containsFinished (ChatService.chat sampleSvc envRefineFail
      [{ role := "user", content := "hi" }] none emptyDb).events = false :=
  ⟨rfl, trivial, rfl,
    (chat_midstream_failure_contract sampleSvc envRefineFail
      [{ role := "user", content := "hi" }] none emptyDb
      { role := "user", content := "hi" } rfl trivial rfl).1,
    (chat_midstream_failure_contract sampleSvc envRefineFail
      [{ role := "user", content := "hi" }] none emptyDb
      { role := "user", content := "hi" } rfl trivial rfl).2.2.1⟩

theorem chat_service_reranker_config_witness :
    ({ hasReranker := true, kg := sampleKG } : ChatEngineConfigM).hasReranker = true ∧
    (ChatService.init { hasReranker := true, kg := sampleKG }).nodePostprocessors =
      [PostProcessor.metadataFilter, PostProcessor.reranker] ∧
    (ChatService.init { hasReranker := true, kg := sampleKG }).similarityTopK = 100 :=
  ⟨rfl, ((chat_service_reranker_config { hasReranker := true, kg := sampleKG }).1.1 rfl).1,
    ((chat_service_reranker_config { hasReranker := true, kg := sampleKG }).1.1 rfl).2⟩

theorem chat_not_found_single_error_witness :
    (([{ role := "user", content := "hi" }] : List InMsg).getLast? =
      some { role := "user", content := "hi" }) ∧
    (emptyDb.chats.find? (fun c => c.id == 7) = none) ∧
    ChatService.chat sampleSvc sampleEnv [{ role := "user", content := "hi" }]
      (some 7) emptyDb =
      { events := [ChatEvent.errorPart chatNotFoundMessage], db := emptyDb, exc := none
      , kg := none, queryArgs := none } :=
  ⟨rfl, rfl, chat_not_found_single_error sampleSvc sampleEnv
    [{ role := "user", content := "hi" }] 7 emptyDb { role := "user", content := "hi" } rfl rfl⟩

theorem chat_kg_disabled_completes_witness :
    sampleSvc.kg.enabled = false ∧
    (([{ role := "user", content := "hi" }] : List InMsg).getLast? =
      some { role := "user", content := "hi" }) ∧
    (ChatService.chat sampleSvc sampleEnv [{ role := "user", content := "hi" }]
      none emptyDb).kg =
      some { entities := [], relations := [], chunks := some [], context := "" } :=
  ⟨rfl, rfl,
    (chat_kg_disabled_completes sampleSvc sampleEnv [{ role := "user", content := "hi" }]
      none emptyDb { role := "user", content := "hi" } rfl rfl trivial
      ⟨fun _ _ => ⟨([], []), rfl⟩, fun _ _ => ⟨([], [], []), rfl⟩, ⟨"refined", rfl⟩, rfl, rfl⟩).1⟩

theorem subgraph_call_settings_witness :
    cexUserMsg.role = roleUser ∧
    (get_chat_message_subgraph cexKG ([1], [2]) cexUserMsg).1 = ([1], [2]) ∧
    (get_chat_message_subgraph cexKG ([1], [2]) cexUserMsg).2 =
      some { query := cexUserMsg.content, history := [], depth := cexKG.depth
           , include_meta := cexKG.include_meta, with_degree := cexKG.with_degree
           , relationship_meta_filters := [], with_chunks := false } :=
  ⟨rfl, ((subgraph_call_settings cexKG ([1], [2]) cexUserMsg).2 rfl).1,
    ((subgraph_call_settings cexKG ([1], [2]) cexUserMsg).2 rfl).2⟩

theorem user_can_view_chat_spec_witness :
    (({ id := 1, title := "t", user_id := some 5, browser_id := "b" } : DBChat).user_id =
      some 5) ∧
    user_can_view_chat { id := 1, title := "t", user_id := some 5, browser_id := "b" }
      none = false ∧
    (user_can_view_chat { id := 1, title := "t", user_id := some 5, browser_id := "b" }
      (some { id := 5, is_superuser := false }) = true ↔
      (({ id := 5, is_superuser := false } : User).is_superuser = true ∨
        ({ id := 5, is_superuser := false } : User).id = 5)) :=
  ⟨rfl,
    ((user_can_view_chat_spec
      { id := 1, title := "t", user_id := some 5, browser_id := "b" }).2 5 rfl).1,
    ((user_can_view_chat_spec
      { id := 1, title := "t", user_id := some 5, browser_id := "b" }).2 5 rfl).2
      { id := 5, is_superuser := false }⟩

theorem replaceSubAux_nil (p : Char) (pt rep : List Char) (n : Nat) :
    replaceSubAux p pt rep n [] = [] := by
  cases n <;> rfl

theorem replaceSubAux_fuel (p : Char) (pt rep : List Char) :
    ∀ n m (s : List Char), s.length ≤ n → s.length ≤ m →
      replaceSubAux p pt rep n s = replaceSubAux p pt rep m s := by
  intro n
  induction n with
  | zero =>
    intro m s hn _
    have h0 : s = [] := List.length_eq_zero.mp (Nat.le_zero.mp hn)
    subst h0
    rw [replaceSubAux_nil, replaceSubAux_nil]
  | succ k ih =>
    intro m s hn hm
    cases s with
    | nil => rw [replaceSubAux_nil, replaceSubAux_nil]
    | cons c cs =>
      cases m with
      | zero => simp at hm
      | succ j =>
        have hck : cs.length ≤ k := by simpa using hn
        have hcj : cs.length ≤ j := by simpa using hm
        show (if (p :: pt).isPrefixOf (c :: cs) then
            rep ++ replaceSubAux p pt rep k (List.drop pt.length cs)
          else c :: replaceSubAux p pt rep k cs) =
          (if (p :: pt).isPrefixOf (c :: cs) then
            rep ++ replaceSubAux p pt rep j (List.drop pt.length cs)
          else c :: replaceSubAux p pt rep j cs)
        by_cases hp : (p :: pt).isPrefixOf (c :: cs)
        · rw [if_pos hp, if_pos hp]
          have hd : (List.drop pt.length cs).length ≤ cs.length := by
            simp [List.length_drop]
          rw [ih j (List.drop pt.length cs) (le_trans hd hck) (le_trans hd hcj)]
        · rw [if_neg hp, if_neg hp, ih j cs hck hcj]

theorem replace1_nil (pat rep : List Char) : replace1 pat rep [] = [] := by
  cases pat <;> rfl

theorem replace1_cons (p : Char) (pt rep : List Char) (c : Char) (cs : List Char) :
    replace1 (p :: pt) rep (c :: cs) =
      if (p :: pt).isPrefixOf (c :: cs) then
        rep ++ replace1 (p :: pt) rep (List.drop pt.length cs)
      else c :: replace1 (p :: pt) rep cs := by
  show (if (p :: pt).isPrefixOf (c :: cs) then
      rep ++ replaceSubAux p pt rep cs.length (List.drop pt.length cs)
    else c :: replaceSubAux p pt rep cs.length cs) = _
  by_cases hp : (p :: pt).isPrefixOf (c :: cs)
  · rw [if_pos hp, if_pos hp]
    have hd : (List.drop pt.length cs).length ≤ cs.length := by
      simp [List.length_drop]
    rw [replaceSubAux_fuel p pt rep cs.length (List.drop pt.length cs).length
      (List.drop pt.length cs) hd le_rfl]
    rfl
  · rw [if_neg hp, if_neg hp]
    rfl

theorem isPrefixOf_cons_ne (a b : Char) (as bs : List Char) (h : a ≠ b) :
    (a :: as).isPrefixOf (b :: bs) = false := by
  simp [List.isPrefixOf, h]

theorem isPrefixOf_append_eq (p : List Char) :
    ∀ (q X : List Char), p.length ≤ q.length →
      p.isPrefixOf (q ++ X) = p.isPrefixOf q := by
  induction p with
  | nil => intro q X _; simp [List.isPrefixOf]
  | cons a as ih =>
    intro q X hlen
    cases q with
    | nil => simp at hlen
    | cons b bs =>
      simp only [List.cons_append, List.isPrefixOf]
      rw [show bs.append X = bs ++ X from rfl, ih bs X (by simpa using hlen)]

theorem isPrefixOf_append_self (p X : List Char) : p.isPrefixOf (p ++ X) = true := by
  rw [List.isPrefixOf_iff_prefix]
  exact List.prefix_append p X

theorem replace1_walk (mh : Char) (mtl rep : List Char) :
    ∀ (pre t : List Char), (∀ c ∈ pre, c ≠ mh) →
      replace1 (mh :: mtl) rep (pre ++ t) = pre ++ replace1 (mh :: mtl) rep t := by
  intro pre
  induction pre with
  | nil => intro t _; simp
  | cons d ds ih =>
    intro t hpre
    have hd : d ≠ mh := hpre d (by simp)
    rw [List.cons_append, replace1_cons,
      if_neg (by rw [isPrefixOf_cons_ne mh d mtl (ds ++ t) (fun he => hd he.symm)]; simp)]
    rw [ih t (fun c hc => hpre c (by simp [hc])), List.cons_append]

theorem okOutput_nil : okOutput [] = true := by
  rw [okOutput]

theorem okOutput_cons_eq (c : Char) (cs : List Char) :
    okOutput (c :: cs) =
      (if c = '\x7b' then
        if phq.isPrefixOf cs then okOutput (cs.drop phq.length)
        else if phc.isPrefixOf cs then okOutput (cs.drop phc.length)
        else if phe.isPrefixOf cs then okOutput (cs.drop phe.length)
        else if phm.isPrefixOf cs then okOutput (cs.drop phm.length)
        else if ['\x7b'].isPrefixOf cs then okOutput (cs.drop 1)
        else false
      else if c = '\x7d' then
        if ['\x7d'].isPrefixOf cs then okOutput (cs.drop 1)
        else false
      else okOutput cs) := by
  rw [okOutput]

theorem okOutput_cons_nonbrace (c : Char) (X : List Char)
    (h1 : c ≠ '\x7b') (h2 : c ≠ '\x7d') : okOutput (c :: X) = okOutput X := by
  rw [okOutput_cons_eq, if_neg h1, if_neg h2]

theorem okOutput_append_nonbrace (pre : List Char) :
    ∀ t, (∀ c ∈ pre, c ≠ '\x7b' ∧ c ≠ '\x7d') → okOutput (pre ++ t) = okOutput t := by
  induction pre with
  | nil => intro t _; simp
  | cons c cs ih =>
    intro t h
    obtain ⟨h1, h2⟩ := h c (by simp)
    rw [List.cons_append, okOutput_cons_nonbrace c _ h1 h2]
    exact ih t (fun x hx => h x (by simp [hx]))

theorem phq_not_prefix_brace (rest : List Char) :
    phq.isPrefixOf ('\x7b' :: rest) = false := by
  rw [show phq = 'q' :: ['u', 'e', 'r', 'y', '_', 's', 't', 'r', '\x7d'] from rfl]
  exact isPrefixOf_cons_ne _ _ _ _ (by decide)

theorem phc_not_prefix_brace (rest : List Char) :
    phc.isPrefixOf ('\x7b' :: rest) = false := by
  rw [show phc = 'c' :: ['o', 'n', 't', 'e', 'x', 't', '_', 's', 't', 'r', '\x7d'] from rfl]
  exact isPrefixOf_cons_ne _ _ _ _ (by decide)

theorem phe_not_prefix_brace (rest : List Char) :
    phe.isPrefixOf ('\x7b' :: rest) = false := by
  rw [show phe =
    'e' :: ['x', 'i', 's', 't', 'i', 'n', 'g', '_', 'a', 'n', 's', 'w', 'e', 'r', '\x7d']
    from rfl]
  exact isPrefixOf_cons_ne _ _ _ _ (by decide)

theorem phm_not_prefix_brace (rest : List Char) :
    phm.isPrefixOf ('\x7b' :: rest) = false := by
  rw [show phm = 'c' :: ['o', 'n', 't', 'e', 'x', 't', '_', 'm', 's', 'g', '\x7d'] from rfl]
  exact isPrefixOf_cons_ne _ _ _ _ (by decide)

theorem okOutput_pair (X : List Char) : okOutput ('\x7b' :: '\x7b' :: X) = okOutput X := by
  rw [okOutput_cons_eq]
  simp [phq_not_prefix_brace, phc_not_prefix_brace, phe_not_prefix_brace,
    phm_not_prefix_brace, List.isPrefixOf]

theorem okOutput_dpair (X : List Char) : okOutput ('\x7d' :: '\x7d' :: X) = okOutput X := by
  rw [okOutput_cons_eq]
  simp [List.isPrefixOf]

theorem okOutput_consume_phq (X : List Char) :
    okOutput (('\x7b' :: phq) ++ X) = okOutput X := by
  rw [List.cons_append, okOutput_cons_eq]
  simp [isPrefixOf_append_self, List.drop_left]

theorem okOutput_consume_phc (X : List Char) :
    okOutput (('\x7b' :: phc) ++ X) = okOutput X := by
  have h1 : phq.isPrefixOf (phc ++ X) = false := by
    rw [isPrefixOf_append_eq phq phc X (by decide)]; decide
  rw [List.cons_append, okOutput_cons_eq]
  simp [h1, isPrefixOf_append_self, List.drop_left]

theorem okOutput_consume_phe (X : List Char) :
    okOutput (('\x7b' :: phe) ++ X) = okOutput X := by
  have h1 : phq.isPrefixOf (phe ++ X) = false := by
    rw [isPrefixOf_append_eq phq phe X (by decide)]; decide
  have h2 : phc.isPrefixOf (phe ++ X) = false := by
    rw [isPrefixOf_append_eq phc phe X (by decide)]; decide
  rw [List.cons_append, okOutput_cons_eq]
  simp [h1, h2, isPrefixOf_append_self, List.drop_left]

theorem okOutput_consume_phm (X : List Char) :
    okOutput (('\x7b' :: phm) ++ X) = okOutput X := by
  have h1 : phq.isPrefixOf (phm ++ X) = false := by
    rw [isPrefixOf_append_eq phq phm X (by decide)]; decide
  have h2 : phc.isPrefixOf (phm ++ X) = false := by
    rw [isPrefixOf_append_eq phc phm X (by decide)]; decide
  have h3 : phe.isPrefixOf (phm ++ X) = false := by
    rw [show phm ++ X = 'c' :: (['o', 'n', 't', 'e', 'x', 't', '_', 'm', 's', 'g', '\x7d'] ++ X)
        from rfl,
      show phe =
        'e' :: ['x', 'i', 's', 't', 'i', 'n', 'g', '_', 'a', 'n', 's', 'w', 'e', 'r', '\x7d']
        from rfl]
    exact isPrefixOf_cons_ne _ _ _ _ (by decide)
  rw [List.cons_append, okOutput_cons_eq]
  simp [h1, h2, h3, isPrefixOf_append_self, List.drop_left]

theorem replace1_single (a : Char) (rep : List Char) :
    ∀ s, replace1 [a] rep s = s.flatMap (fun c => if c = a then rep else [c]) := by
  intro s
  induction s with
  | nil => rw [replace1_nil]; rfl
  | cons c cs ih =>
    rw [replace1_cons]
    by_cases hc : c = a
    · subst hc
      rw [if_pos (by simp [List.isPrefixOf])]
      simp only [List.length_nil, List.drop_zero]
      rw [ih]
      simp [List.flatMap_cons]
    · rw [if_neg (by simp [List.isPrefixOf]; intro h; exact hc h.symm)]
      rw [ih]
      simp [List.flatMap_cons, hc]

theorem double_braces_eq (s : List Char) :
    replace1 ['\x7d'] ['\x7d', '\x7d'] (replace1 ['\x7b'] ['\x7b', '\x7b'] s) =
      s.flatMap escBrace := by
  rw [replace1_single, replace1_single]
  induction s with
  | nil => rfl
  | cons c cs ih =>
    rw [List.flatMap_cons, List.flatMap_cons, List.flatMap_append, ih]
    congr 1
    by_cases h1 : c = '\x7b'
    · subst h1; rfl
    · by_cases h2 : c = '\x7d'
      · subst h2; rfl
      · simp [escBrace, h1, h2]

theorem okOutput_bind_escBrace : ∀ s : List Char, okOutput (s.flatMap escBrace) = true := by
  intro s
  induction s with
  | nil => exact okOutput_nil
  | cons c cs ih =>
    rw [List.flatMap_cons]
    by_cases h1 : c = '\x7b'
    · subst h1
      rw [show escBrace '\x7b' = ['\x7b', '\x7b'] from rfl]
      rw [show (['\x7b', '\x7b'] : List Char) ++ cs.flatMap escBrace =
        '\x7b' :: '\x7b' :: cs.flatMap escBrace from rfl]
      rw [okOutput_pair]
      exact ih
    · by_cases h2 : c = '\x7d'
      · subst h2
        rw [show escBrace '\x7d' = ['\x7d', '\x7d'] from rfl]
        rw [show (['\x7d', '\x7d'] : List Char) ++ cs.flatMap escBrace =
          '\x7d' :: '\x7d' :: cs.flatMap escBrace from rfl]
        rw [okOutput_dpair]
        exact ih
      · rw [show escBrace c = [c] from by simp [escBrace, h1, h2]]
        rw [show ([c] : List Char) ++ cs.flatMap escBrace = c :: cs.flatMap escBrace from rfl]
        rw [okOutput_cons_nonbrace c _ h1 h2]
        exact ih

theorem okOutput_replace1_marker (mh : Char) (mtl phX : List Char)
    (hmh1 : mh ≠ '\x7b') (hmh2 : mh ≠ '\x7d')
    (hm : ∀ c ∈ mh :: mtl, c ≠ '\x7b' ∧ c ≠ '\x7d')
    (hphX : phX = phq ∨ phX = phc ∨ phX = phe ∨ phX = phm)
    (hnq : ∀ c ∈ '\x7b' :: phq, c ≠ mh) (hnc : ∀ c ∈ '\x7b' :: phc, c ≠ mh)
    (hne : ∀ c ∈ '\x7b' :: phe, c ≠ mh) (hnm : ∀ c ∈ '\x7b' :: phm, c ≠ mh) :
    ∀ s, okOutput s = true →
      okOutput (replace1 (mh :: mtl) ('\x7b' :: phX) s) = true := by
  have hconsume : ∀ X, okOutput (('\x7b' :: phX) ++ X) = okOutput X := by
    rcases hphX with h | h | h | h <;> subst h
    · exact okOutput_consume_phq
    · exact okOutput_consume_phc
    · exact okOutput_consume_phe
    · exact okOutput_consume_phm
  suffices H : ∀ N s, s.length ≤ N → okOutput s = true →
      okOutput (replace1 (mh :: mtl) ('\x7b' :: phX) s) = true by
    intro s hs
    exact H s.length s le_rfl hs
  intro N
  induction N with
  | zero =>
    intro s hlen _
    have h0 : s = [] := List.length_eq_zero.mp (Nat.le_zero.mp hlen)
    subst h0
    rw [replace1_nil]
    exact okOutput_nil
  | succ K ih =>
    intro s hlen hs
    cases s with
    | nil =>
      rw [replace1_nil]
      exact okOutput_nil
    | cons c cs =>
      have hlen' : cs.length ≤ K := by simpa using hlen
      by_cases hc1 : c = '\x7b'
      · subst hc1
        rw [okOutput_cons_eq, if_pos rfl] at hs
        have hplaceholder : ∀ (phy : List Char), (∀ x ∈ '\x7b' :: phy, x ≠ mh) →
            (∀ X, okOutput (('\x7b' :: phy) ++ X) = okOutput X) →
            ∀ t, cs = phy ++ t → okOutput t = true →
            okOutput (replace1 (mh :: mtl) ('\x7b' :: phX) ('\x7b' :: cs)) = true := by
          intro phy hn hcons t ht hst
          subst ht
          have hwalk := replace1_walk mh mtl ('\x7b' :: phX) ('\x7b' :: phy) t hn
          rw [show ('\x7b' :: phy) ++ t = '\x7b' :: (phy ++ t) from rfl] at hwalk
          rw [hwalk, hcons]
          refine ih t ?_ hst
          have hl2 := hlen'
          simp only [List.length_append] at hl2
          omega
        by_cases hq : phq.isPrefixOf cs = true
        · rw [if_pos hq] at hs
          obtain ⟨t, ht⟩ : ∃ t, cs = phq ++ t := by
            obtain ⟨t, ht⟩ := List.isPrefixOf_iff_prefix.mp hq
            exact ⟨t, ht.symm⟩
          rw [ht, List.drop_left] at hs
          exact hplaceholder phq hnq okOutput_consume_phq t ht hs
        · rw [if_neg hq] at hs
          by_cases hcp : phc.isPrefixOf cs = true
          · rw [if_pos hcp] at hs
            obtain ⟨t, ht⟩ : ∃ t, cs = phc ++ t := by
              obtain ⟨t, ht⟩ := List.isPrefixOf_iff_prefix.mp hcp
              exact ⟨t, ht.symm⟩
            rw [ht, List.drop_left] at hs
            exact hplaceholder phc hnc okOutput_consume_phc t ht hs
          · rw [if_neg hcp] at hs
            by_cases hep : phe.isPrefixOf cs = true
            · rw [if_pos hep] at hs
              obtain ⟨t, ht⟩ : ∃ t, cs = phe ++ t := by
                obtain ⟨t, ht⟩ := List.isPrefixOf_iff_prefix.mp hep
                exact ⟨t, ht.symm⟩
              rw [ht, List.drop_left] at hs
              exact hplaceholder phe hne okOutput_consume_phe t ht hs
            · rw [if_neg hep] at hs
              by_cases hmp : phm.isPrefixOf cs = true
              · rw [if_pos hmp] at hs
                obtain ⟨t, ht⟩ : ∃ t, cs = phm ++ t := by
                  obtain ⟨t, ht⟩ := List.isPrefixOf_iff_prefix.mp hmp
                  exact ⟨t, ht.symm⟩
                rw [ht, List.drop_left] at hs
                exact hplaceholder phm hnm okOutput_consume_phm t ht hs
              · rw [if_neg hmp] at hs
                by_cases hbb : ['\x7b'].isPrefixOf cs = true
                · rw [if_pos hbb] at hs
                  cases cs with
                  | nil => simp [List.isPrefixOf] at hbb
                  | cons d rest =>
                    have hd : '\x7b' = d := by simpa [List.isPrefixOf] using hbb
                    subst hd
                    rw [show (('\x7b' : Char) :: rest).drop 1 = rest from rfl] at hs
                    have hstep : replace1 (mh :: mtl) ('\x7b' :: phX)
                        ('\x7b' :: '\x7b' :: rest) =
                        '\x7b' :: '\x7b' :: replace1 (mh :: mtl) ('\x7b' :: phX) rest := by
                      rw [replace1_cons,
                        if_neg (by rw [isPrefixOf_cons_ne mh '\x7b' mtl _ hmh1]; simp),
                        replace1_cons,
                        if_neg (by rw [isPrefixOf_cons_ne mh '\x7b' mtl _ hmh1]; simp)]
                    rw [hstep, okOutput_pair]
                    refine ih rest ?_ hs
                    simp at hlen
                    omega
                · rw [if_neg hbb] at hs
                  simp at hs
      · by_cases hc2 : c = '\x7d'
        · subst hc2
          rw [okOutput_cons_eq, if_neg (by decide), if_pos rfl] at hs
          by_cases hbb : ['\x7d'].isPrefixOf cs = true
          · rw [if_pos hbb] at hs
            cases cs with
            | nil => simp [List.isPrefixOf] at hbb
            | cons d rest =>
              have hd : '\x7d' = d := by simpa [List.isPrefixOf] using hbb
              subst hd
              rw [show (('\x7d' : Char) :: rest).drop 1 = rest from rfl] at hs
              have hstep : replace1 (mh :: mtl) ('\x7b' :: phX)
                  ('\x7d' :: '\x7d' :: rest) =
                  '\x7d' :: '\x7d' :: replace1 (mh :: mtl) ('\x7b' :: phX) rest := by
                rw [replace1_cons,
                  if_neg (by rw [isPrefixOf_cons_ne mh '\x7d' mtl _ hmh2]; simp),
                  replace1_cons,
                  if_neg (by rw [isPrefixOf_cons_ne mh '\x7d' mtl _ hmh2]; simp)]
              rw [hstep, okOutput_dpair]
              refine ih rest ?_ hs
              simp at hlen
              omega
          · rw [if_neg hbb] at hs
            simp at hs
        · by_cases hp : (mh :: mtl).isPrefixOf (c :: cs) = true
          · obtain ⟨t, ht⟩ : ∃ t, c :: cs = (mh :: mtl) ++ t := by
              obtain ⟨t, ht⟩ := List.isPrefixOf_iff_prefix.mp hp
              exact ⟨t, ht.symm⟩
            have hcs : cs = mtl ++ t := by
              rw [List.cons_append] at ht
              injection ht with h1 h2
            have hst : okOutput t = true := by
              rw [ht, okOutput_append_nonbrace (mh :: mtl) t hm] at hs
              exact hs
            have hrepl : replace1 (mh :: mtl) ('\x7b' :: phX) (c :: cs) =
                ('\x7b' :: phX) ++ replace1 (mh :: mtl) ('\x7b' :: phX) t := by
              rw [replace1_cons, if_pos hp, hcs, List.drop_left]
            rw [hrepl, hconsume]
            refine ih t ?_ hst
            rw [hcs] at hlen'
            simp only [List.length_append] at hlen'
            omega
          · have hstep : replace1 (mh :: mtl) ('\x7b' :: phX) (c :: cs) =
                c :: replace1 (mh :: mtl) ('\x7b' :: phX) cs := by
              rw [replace1_cons, if_neg hp]
            rw [hstep, okOutput_cons_nonbrace c _ hc1 hc2]
            rw [okOutput_cons_nonbrace c cs hc1 hc2] at hs
            exact ih cs hlen' hs

theorem promptPostprocess_okOutput (s : List Char) :
    okOutput (promptPostprocess s) = true := by
  unfold promptPostprocess
  rw [double_braces_eq]
  rw [show mQuery = '<' :: ['<', 'q', 'u', 'e', 'r', 'y', '_', 's', 't', 'r', '>', '>']
      from rfl,
    show mCtxStr = '<' :: ['<', 'c', 'o', 'n', 't', 'e', 'x', 't', '_', 's', 't', 'r', '>', '>']
      from rfl,
    show mExisting = '<' ::
      ['<', 'e', 'x', 'i', 's', 't', 'i', 'n', 'g', '_', 'a', 'n', 's', 'w', 'e', 'r', '>', '>']
      from rfl,
    show mCtxMsg = '<' :: ['<', 'c', 'o', 'n', 't', 'e', 'x', 't', '_', 'm', 's', 'g', '>', '>']
      from rfl]
  refine okOutput_replace1_marker '<' _ phm (by decide) (by decide) (by decide)
    (Or.inr (Or.inr (Or.inr rfl))) (by decide) (by decide) (by decide) (by decide) _ ?_
  refine okOutput_replace1_marker '<' _ phe (by decide) (by decide) (by decide)
    (Or.inr (Or.inr (Or.inl rfl))) (by decide) (by decide) (by decide) (by decide) _ ?_
  refine okOutput_replace1_marker '<' _ phc (by decide) (by decide) (by decide)
    (Or.inr (Or.inl rfl)) (by decide) (by decide) (by decide) (by decide) _ ?_
  refine okOutput_replace1_marker '<' _ phq (by decide) (by decide) (by decide)
    (Or.inl rfl) (by decide) (by decide) (by decide) (by decide) _ ?_
  exact okOutput_bind_escBrace s

/-- C6 (amended): for every jinja2-rendered string, the output of
get_prompt_by_jinja2_template contains no single (unescaped)
brace-format syntax other than the four deferred placeholders: scanning
the output greedily, every brace is part of a doubled escaped pair or
of one of the placeholders for query_str, context_str, existing_answer
and context_msg.  (The further claim that rendered content can never
inject a formatting directive is refuted separately: the angle-bracket
markers are rewritten into live placeholders.) -/
theorem prompt_template_escape_sound (rendered : String) :
    okOutput (get_prompt_by_jinja2_template rendered).toList = true := by
  show okOutput (promptPostprocess rendered.toList) = true
  exact promptPostprocess_okOutput rendered.toList

/-- C6 counterexample: the rendered value "<<query_str>>" contains no
brace at all, yet the escaped output is the live placeholder for
query_str — retrieved content can inject a formatting directive into
the downstream prompt formatter, refuting the claim that escaping makes
such injection impossible. -/
theorem prompt_template_marker_injection_cex :
    (∀ c ∈ mQuery, c ≠ '\x7b' ∧ c ≠ '\x7d') ∧
    get_prompt_by_jinja2_template "<<query_str>>" = "\x7bquery_str\x7d" := by
  decide
